import Mathlib

/-!
Verification of the CLIverge Tool Lifecycle & Version Resolution Engine
(crates/cliverge-core plus the GUI background coordinator) against its
natural-language specification.

The Rust source is shallowly embedded: pure functions become Lean
functions; subprocess execution is an oracle `exec : List String →
Option CmdOutput` (argv ↦ captured output, `none` = spawn failure);
wall-clock timestamps are explicit `Nat` parameters; `HashMap` fields
become association lists with `List.lookup` semantics.
-/

namespace Cliverge

/-- Captured output of a finished subprocess (exit status + streams),
embedding `std::process::Output` as consumed by the code. -/
structure CmdOutput where
  success : Bool
  stdout : String
  stderr : String
  deriving DecidableEq, Repr

/-- `ToolError` from `error.rs` (the `Io` variant carries its message). -/
inductive ToolError where
  | NotFound (msg : String)
  | InstallationFailed (msg : String)
  | UpdateFailed (msg : String)
  | ExecutionFailed (msg : String)
  | ConfigError (msg : String)
  | ParseError (msg : String)
  | NotSupported (msg : String)
  | Io (msg : String)
  deriving DecidableEq, Repr

/-- `ToolStatus` from `tool.rs`. -/
inductive ToolStatus where
  | Unknown
  | NotInstalled
  | Installed (version : String)
  | Error (message : String)
  deriving DecidableEq, Repr

/-- `InstallMethod` from `config.rs`. -/
structure InstallMethod where
  method : String
  command : Option (List String)
  url : Option String
  package_name : Option String
  deriving DecidableEq, Repr

/-- `ToolConfig` from `config.rs`. The per-platform `HashMap`s are
association lists keyed by the platform string. `config_schema` is
omitted: it is consumed only by the UI and by no modeled operation. -/
structure ToolConfig where
  id : String
  name : String
  description : String
  website : String
  command : String
  version_check : List (String × List String)
  update_check : Option (List (String × List String))
  install : List (String × InstallMethod)
  uninstall : Option (List (String × InstallMethod))
  update : Option (List (String × InstallMethod))
  deriving DecidableEq, Repr

/-! ## Version parsing and comparison (`version.rs`) -/

/-- One step of Rust's `str::split('.')`: split a character list at every
dot, keeping empty pieces. -/
def splitParts : List Char → List (List Char)
  | [] => [[]]
  | c :: cs =>
    if c = '.' then [] :: splitParts cs
    else
      match splitParts cs with
      | p :: ps => (c :: p) :: ps
      | [] => [[c]]

/-- Rust's `str::parse::<u32>().ok()`: optional leading `+`, then a
nonempty run of ASCII digits whose value fits in `u32`. -/
def parseU32? (s : List Char) : Option Nat :=
  let digits := match s with
    | '+' :: rest => rest
    | other => other
  if digits.isEmpty then none
  else if digits.all Char.isDigit then
    let n := digits.foldl (fun acc c => acc * 10 + (c.toNat - 48)) 0
    if n < 2 ^ 32 then some n else none
  else none

/-- The `parse_version` closure inside `VersionChecker::is_version_newer`:
strip leading `v`s, split on dots, keep the components that parse as
`u32` (non-numeric components are dropped, compacting the list). -/
def parse_version (v : String) : List Nat :=
  (splitParts (v.toList.dropWhile (· = 'v'))).filterMap parseU32?

/-- The comparison loop of `is_version_newer`: walk the zipped component
lists; on exhaustion of either side the remaining-length comparison
equals the original `new_parts.len() > current_parts.len()` test. -/
def cmpParts : List Nat → List Nat → Bool
  | n :: ns, c :: cs =>
    if n > c then true
    else if n < c then false
    else cmpParts ns cs
  | ns, cs => ns.length > cs.length

/-- `VersionChecker::is_version_newer` from `version.rs`. -/
def is_version_newer (new_version current_version : String) : Bool :=
  cmpParts (parse_version new_version) (parse_version current_version)

/-- `VersionChecker::compare_versions` from `version.rs`: update is
available only when both versions are known and `latest` is not the
sentinel `"current"`. -/
def compare_versions (current latest : Option String) : Bool :=
  match current, latest with
  | some c, some l => if l = "current" then false else is_version_newer l c
  | _, _ => false

/-- Modelled from the spec for the refinement half of claim C3 only:
the spec's comparison rule, "dot-separated integer tuples compared
component-wise with missing trailing components treated as zero,
update exactly when latest is strictly greater". -/
def cmpPartsPadded : List Nat → List Nat → Bool
  | n :: ns, c :: cs =>
    if n > c then true
    else if n < c then false
    else cmpPartsPadded ns cs
  | n :: ns, [] =>
    if n > 0 then true else cmpPartsPadded ns []
  | [], _ :: _ => false
  | [], [] => false

/-- The spec's version-newness predicate (zero-padded comparison),
used only to compare against the source's `is_version_newer`. -/
def is_version_newer_spec (new_version current_version : String) : Bool :=
  cmpPartsPadded (parse_version new_version) (parse_version current_version)

/-! ## Version-string extraction (`VersionChecker::parse_version_string`)

The three regexes of `parse_version_string` are embedded as direct
scanners over character lists. The shared core is
`\d+\.\d+\.\d+(?:\.\d+)?` with greedy digit runs (digit runs and the
dot are disjoint, so maximal-munch is exact); a match attempt is made
at every start position left to right, mirroring leftmost matching.
The returned value is capture group 1 (the `X.Y.Z(.W)?` text). -/

/-- Match `\d+\.\d+\.\d+(?:\.\d+)?` anchored at the head of the list,
returning the matched text. -/
def matchCore (s : List Char) : Option (List Char) :=
  let d1 := s.takeWhile Char.isDigit
  let r1 := s.dropWhile Char.isDigit
  if d1.isEmpty then none
  else
    match r1 with
    | '.' :: r2 =>
      let d2 := r2.takeWhile Char.isDigit
      let r3 := r2.dropWhile Char.isDigit
      if d2.isEmpty then none
      else
        match r3 with
        | '.' :: r4 =>
          let d3 := r4.takeWhile Char.isDigit
          let r5 := r4.dropWhile Char.isDigit
          if d3.isEmpty then none
          else
            match r5 with
            | '.' :: r6 =>
              let d4 := r6.takeWhile Char.isDigit
              if d4.isEmpty then some (d1 ++ '.' :: d2 ++ '.' :: d3)
              else some (d1 ++ '.' :: d2 ++ '.' :: d3 ++ '.' :: d4)
            | _ => some (d1 ++ '.' :: d2 ++ '.' :: d3)
        | _ => none
    | _ => none

/-- Pattern `v?(\d+\.\d+\.\d+(?:\.\d+)?)` anchored at the head:
prefer consuming the optional `v` (leftmost-first alternation). -/
def patAnyAt (s : List Char) : Option (List Char) :=
  if s.head? = some 'v' then (matchCore s.tail).orElse fun _ => matchCore s
  else matchCore s

/-- Strip the literal `version` from the head of the list. -/
def stripVersionLit : List Char → Option (List Char)
  | 'v' :: 'e' :: 'r' :: 's' :: 'i' :: 'o' :: 'n' :: rest => some rest
  | _ => none

/-- Pattern `version\s+v?(\d+\.\d+\.\d+(?:\.\d+)?)` anchored at the
head (`\s` is modeled by `Char.isWhitespace`). -/
def patVersionAt (s : List Char) : Option (List Char) :=
  match stripVersionLit s with
  | some r =>
    let ws := r.takeWhile Char.isWhitespace
    let r2 := r.dropWhile Char.isWhitespace
    if ws.isEmpty then none
    else if r2.head? = some 'v' then (matchCore r2.tail).orElse fun _ => matchCore r2
    else matchCore r2
  | none => none

/-- Scan left to right for the first start position where the anchored
pattern matches (regex leftmost matching). -/
def firstMatch (f : List Char → Option (List Char)) : List Char → Option (List Char)
  | [] => f []
  | s@(_ :: rest) =>
    match f s with
    | some v => some v
    | none => firstMatch f rest

/-- `VersionChecker::parse_version_string` from `version.rs`: try the
patterns in the source's array order — `v?(X.Y.Z(.W)?)` anywhere, then
`version\s+v?(X.Y.Z(.W)?)`, then bare `(X.Y.Z(.W)?)` — returning the
first capture, or `"unknown"` when none matches. -/
def parse_version_string (output : String) : String :=
  match firstMatch patAnyAt output.toList with
  | some v => String.mk v
  | none =>
    match firstMatch patVersionAt output.toList with
    | some v => String.mk v
    | none =>
      match firstMatch matchCore output.toList with
      | some v => String.mk v
      | none => "unknown"

/-- Modelled from the spec for the refinement half of claim C4 only:
the spec's priority order — (a) the `version`-prefixed pattern first,
then (b) `v?X.Y.Z(.W)?` anywhere, then (c) bare `X.Y.Z(.W)?`. -/
def parse_version_string_spec (output : String) : String :=
  match firstMatch patVersionAt output.toList with
  | some v => String.mk v
  | none =>
    match firstMatch patAnyAt output.toList with
    | some v => String.mk v
    | none =>
      match firstMatch matchCore output.toList with
      | some v => String.mk v
      | none => "unknown"

/-! ## Tool Registry CRUD (`ConfigManager`, `config.rs`) -/

/-- `ConfigManager::get_tool_config`: first tool with the given id. -/
def get_tool_config (tools : List ToolConfig) (id : String) : Option ToolConfig :=
  tools.find? (fun t => t.id = id)

/-- `ConfigManager::add_tool`: unconditional `Vec::push`. -/
def add_tool (tools : List ToolConfig) (tool : ToolConfig) : List ToolConfig :=
  tools ++ [tool]

/-- `ConfigManager::update_tool_config`: overwrite the first tool whose
id matches (`iter_mut().find(...)`); no-op when the id is absent. -/
def update_tool_config : List ToolConfig → String → ToolConfig → List ToolConfig
  | [], _, _ => []
  | t :: ts, id, config =>
    if t.id = id then config :: ts
    else t :: update_tool_config ts id config

/-- `ConfigManager::remove_tool`: `retain(|t| t.id != id)`. -/
def remove_tool (tools : List ToolConfig) (id : String) : List ToolConfig :=
  tools.filter (fun t => t.id ≠ id)

/-- The registry invariant of the spec: tool ids are pairwise distinct. -/
def idsNodup (tools : List ToolConfig) : Prop :=
  (tools.map (fun t => t.id)).Nodup

instance (tools : List ToolConfig) : Decidable (idsNodup tools) := by
  unfold idsNodup; infer_instance

/-! ## Backward-compatible deserializers (`config.rs`) -/

/-- The JSON shapes the `version_check` field can present to its serde
visitor: a legacy flat argument list or a platform map. -/
inductive VCheckInput where
  | seq (items : List String)
  | map (entries : List (String × List String))
  deriving DecidableEq, Repr

/-- The JSON shapes the `update_check` field can present: additionally
`null` (`visit_none`/`visit_unit`) or an absent field (serde `default`). -/
inductive UCheckInput where
  | null
  | absent
  | seq (items : List String)
  | map (entries : List (String × List String))
  deriving DecidableEq, Repr

/-- `deserialize_version_check` from `config.rs`: a legacy flat list is
broadcast to the three platform keys; a map passes through. Total on
these shapes (the visitor has no error path of its own). -/
def deserialize_version_check : VCheckInput → List (String × List String)
  | .seq v => [("windows", v), ("macos", v), ("linux", v)]
  | .map m => m

/-- `deserialize_update_check` from `config.rs`: `null`/absent parse to
`none`; a legacy flat list parses to `none` when empty and is broadcast
to the three platforms otherwise; a map passes through. -/
def deserialize_update_check : UCheckInput → Option (List (String × List String))
  | .null => none
  | .absent => none
  | .seq v =>
    if v.isEmpty then none
    else some [("windows", v), ("macos", v), ("linux", v)]
  | .map m => some m

/-! ## Cache Store (`cache.rs`) -/

/-- `CacheEntry<T>` from `cache.rs`; `timestamp` is seconds since the
epoch. -/
structure CacheEntry (α : Type) where
  data : α
  timestamp : Nat
  ttl_seconds : Nat
  deriving DecidableEq, Repr

/-- `CacheEntry::new`, with the wall-clock read made explicit. -/
def CacheEntry.mkAt (now : Nat) (data : α) (ttl_seconds : Nat) : CacheEntry α :=
  { data := data, timestamp := now, ttl_seconds := ttl_seconds }

/-- `CacheEntry::is_expired`, with the wall-clock read made explicit:
`now > timestamp + ttl_seconds`. -/
def CacheEntry.is_expired (e : CacheEntry α) (now : Nat) : Bool :=
  e.timestamp + e.ttl_seconds < now

/-- `CacheManager::get_tool_status`: a pure read (`&self` in the
source) — expired entries yield `none` and the map is not touched. -/
def cacheGetToolStatus (now : Nat) (status_cache : List (String × CacheEntry ToolStatus))
    (tool_id : String) : Option ToolStatus :=
  (status_cache.lookup tool_id).bind fun entry =>
    if entry.is_expired now then none else some entry.data

/-- `CacheManager::set_tool_status`: stamp `now`, 1-day TTL. -/
def cacheSetToolStatus (now : Nat) (status_cache : List (String × CacheEntry ToolStatus))
    (tool_id : String) (status : ToolStatus) : List (String × CacheEntry ToolStatus) :=
  (tool_id, CacheEntry.mkAt now status 86400) ::
    status_cache.filter (fun kv => kv.1 ≠ tool_id)

/-! ## Lifecycle Manager (`ToolManager`, `tool.rs`)

Subprocess execution is the oracle `exec : List String → Option
CmdOutput` over the full argv (`command :: args`); `none` models a
spawn failure (`cmd.output()` returning `Err`). The non-Windows branch
of `create_hidden_command` is embedded (the Windows branch re-routes
the same argv through PowerShell with identical observable behavior).
The in-memory session status cache (`status_cache: HashMap<String,
ToolStatus>`) is an association list threaded explicitly. -/

/-- Oracle type for subprocess execution. -/
abbrev Exec := List String → Option CmdOutput

/-- `HashMap::insert` on the session status cache. -/
def sessionInsert (cache : List (String × ToolStatus)) (tool_id : String)
    (status : ToolStatus) : List (String × ToolStatus) :=
  (tool_id, status) :: cache.filter (fun kv => kv.1 ≠ tool_id)

/-- `HashMap::remove` on the session status cache. -/
def sessionRemove (cache : List (String × ToolStatus)) (tool_id : String) :
    List (String × ToolStatus) :=
  cache.filter (fun kv => kv.1 ≠ tool_id)

/-- `ToolManager::is_tool_installed`: resolve the current platform's
`version_check` argv; absent platform ⇒ `false`; otherwise run the
command and report its exit status (spawn failure ⇒ `false`). -/
def is_tool_installed (exec : Exec) (platform : String) (tool_config : ToolConfig) : Bool :=
  match tool_config.version_check.lookup platform with
  | some args =>
    match exec (tool_config.command :: args) with
    | some output => output.success
    | none => false
  | none => false

/-- `ToolManager::check_tool_status`. `get_version` is the oracle for
the `get_tool_version` subcall (`VersionChecker::get_current_version`,
a subprocess run plus version extraction). Returns the status together
with the updated session cache. -/
def check_tool_status (exec : Exec) (get_version : Except ToolError String)
    (platform : String) (tools : List ToolConfig)
    (cache : List (String × ToolStatus)) (tool_id : String) :
    Except ToolError (ToolStatus × List (String × ToolStatus)) :=
  match get_tool_config tools tool_id with
  | none => .error (.NotFound ("Tool " ++ tool_id ++ " not found"))
  | some _tool_config =>
    let status :=
      if is_tool_installed exec platform _tool_config then
        match get_version with
        | .ok version => ToolStatus.Installed version
        | .error _ => ToolStatus.Error "Version check failed"
      else ToolStatus.NotInstalled
    .ok (status, sessionInsert cache tool_id status)

/-- `ToolManager::execute_install_command`: empty argv is a config
error; spawn failure or non-zero exit is `ExecutionFailed`. -/
def execute_install_command (exec : Exec) (command : List String) :
    Except ToolError Unit :=
  if command.isEmpty then .error (.ConfigError "Empty install command")
  else
    match exec command with
    | none => .error (.ExecutionFailed "Failed to execute command")
    | some output =>
      if output.success then .ok ()
      else .error (.ExecutionFailed
        ("Install command failed: stdout: " ++ output.stdout ++
          ", stderr: " ++ output.stderr))

/-- `ToolManager::construct_install_command`: fixed per-method argv
templates; unknown method ⇒ `NotSupported`, missing package name ⇒
`ConfigError`. -/
def construct_install_command (install_config : InstallMethod) :
    Except ToolError (List String) :=
  let need (mk : String → List String) (errMsg : String) :
      Except ToolError (List String) :=
    match install_config.package_name with
    | some p => .ok (mk p)
    | none => .error (.ConfigError errMsg)
  match install_config.method with
  | "npm" => need (fun p => ["npm", "install", "-g", p]) "npm install requires package_name"
  | "brew" => need (fun p => ["brew", "install", p]) "brew install requires package_name"
  | "pip" => need (fun p => ["pip", "install", p]) "pip install requires package_name"
  | "apt" => need (fun p => ["sudo", "apt", "install", "-y", p]) "apt install requires package_name"
  | "yum" => need (fun p => ["sudo", "yum", "install", "-y", p]) "yum install requires package_name"
  | "dnf" => need (fun p => ["sudo", "dnf", "install", "-y", p]) "dnf install requires package_name"
  | "pacman" => need (fun p => ["sudo", "pacman", "-S", "--noconfirm", p]) "pacman install requires package_name"
  | "winget" => need (fun p => ["winget", "install", p, "--accept-source-agreements", "--accept-package-agreements"]) "winget install requires package_name"
  | "choco" => need (fun p => ["choco", "install", p, "-y"]) "choco install requires package_name"
  | "scoop" => need (fun p => ["scoop", "install", p]) "scoop install requires package_name"
  | "cargo" => need (fun p => ["cargo", "install", p]) "cargo install requires package_name"
  | "go" => need (fun p => ["go", "install", p]) "go install requires package_name"
  | m => .error (.NotSupported ("Install method '" ++ m ++ "' not supported"))

/-- `ToolManager::install_tool`: resolve the platform's
`InstallMethod` (absent ⇒ `NotSupported`); no-op success when already
detected installed; else run the explicit `command` argv or the
synthesized one; on success remove the session-cache entry. Returns
the updated session cache. Note: only the in-memory session cache is
touched — `ToolManager` holds no reference to the persisted
`CacheManager`. -/
def install_tool (exec : Exec) (platform : String) (tools : List ToolConfig)
    (cache : List (String × ToolStatus)) (tool_id : String) :
    Except ToolError (List (String × ToolStatus)) :=
  match get_tool_config tools tool_id with
  | none => .error (.NotFound ("Tool " ++ tool_id ++ " not found"))
  | some tool_config =>
    match tool_config.install.lookup platform with
    | none => .error (.NotSupported
        ("Platform " ++ platform ++ " not supported for " ++ tool_id))
    | some install_config =>
      if is_tool_installed exec platform tool_config then .ok cache
      else
        let run : Except ToolError Unit :=
          match install_config.command with
          | some command => execute_install_command exec command
          | none =>
            match construct_install_command install_config with
            | .ok command => execute_install_command exec command
            | .error e => .error e
        match run with
        | .ok _ => .ok (sessionRemove cache tool_id)
        | .error e => .error e

/-- The package-manager update argv synthesized inside
`ToolManager::update_tool` (npm / brew / pip only). -/
def construct_update_command (install_config : InstallMethod) :
    Except ToolError (List String) :=
  match install_config.method with
  | "npm" =>
    match install_config.package_name with
    | some p => .ok ["npm", "update", "-g", p]
    | none => .error (.ConfigError "NPM package name not specified")
  | "brew" =>
    match install_config.package_name with
    | some p => .ok ["brew", "upgrade", p]
    | none => .error (.ConfigError "Brew formula name not specified")
  | "pip" =>
    match install_config.package_name with
    | some p => .ok ["pip", "install", "--upgrade", p]
    | none => .error (.ConfigError "Pip package name not specified")
  | m => .error (.NotSupported ("Update method " ++ m ++ " not supported"))

/-- The textual flag substitution of the self-update path of
`update_tool`: replace `--check-only` with `--update`. -/
def selfUpdateArgv (update_cmd : List String) : List String :=
  update_cmd.map (fun s => if s = "--check-only" then "--update" else s)

/-- `ToolManager::update_tool`: platform `InstallMethod` must exist
(`NotSupported` otherwise); not-installed is an error; the self-update
path (platform entry of `update_check`, `--check-only` replaced by
`--update`) returns success immediately when its command succeeds —
without touching the session cache; otherwise the synthesized
package-manager update runs and, on success, the session-cache entry
is removed. -/
def update_tool (exec : Exec) (platform : String) (tools : List ToolConfig)
    (cache : List (String × ToolStatus)) (tool_id : String) :
    Except ToolError (List (String × ToolStatus)) :=
  match get_tool_config tools tool_id with
  | none => .error (.NotFound ("Tool " ++ tool_id ++ " not found"))
  | some tool_config =>
    match tool_config.install.lookup platform with
    | none => .error (.NotSupported
        ("Platform " ++ platform ++ " not supported for " ++ tool_id))
    | some install_config =>
      if ¬ is_tool_installed exec platform tool_config then
        .error (.NotFound ("Tool " ++ tool_id ++ " is not installed"))
      else
        let fallback : Except ToolError (List (String × ToolStatus)) :=
          match construct_update_command install_config with
          | .error e => .error e
          | .ok update_command =>
            match execute_install_command exec update_command with
            | .ok _ => .ok (sessionRemove cache tool_id)
            | .error e => .error e
        match tool_config.update_check with
        | some update_check_configs =>
          match update_check_configs.lookup platform with
          | some update_cmd =>
            match execute_install_command exec (selfUpdateArgv update_cmd) with
            | .ok _ => .ok cache
            | .error _ => fallback
          | none => fallback
        | none => fallback

/-! ## Version Resolver (`VersionChecker`, `version.rs`)

`version.rs` accesses `version_check`/`update_check` as flat argv
lists (`&tool_config.version_check` passed as `&[String]`,
`update_cmd[0]`), the pre-multi-platform shape, so its functions are
embedded over that shape. The effectful subcalls of `auto_check`
(`check_via_self_update`, `check_via_package_manager`) spawn
subprocesses; their results enter the embedding as oracle values. -/

/-- `VersionInfo` from `version.rs` (`last_checked` in seconds). -/
structure VersionInfo where
  current : Option String
  latest : Option String
  update_available : Bool
  check_method : String
  last_checked : Nat
  deriving DecidableEq, Repr

/-- `ToolVersionInfo` from `version.rs` (`release_date` in seconds). -/
structure ToolVersionInfo where
  latest_version : String
  release_date : Nat
  download_url : Option String
  changelog_url : Option String
  deriving DecidableEq, Repr

/-- The `tools` map of `VersionDatabase` as an association list. -/
structure VersionDatabase where
  last_updated : Nat
  tools : List (String × ToolVersionInfo)
  deriving DecidableEq, Repr

/-- `VersionDatabase::get_latest_version`. -/
def VersionDatabase.get_latest_version (db : VersionDatabase) (tool_id : String) :
    Option String :=
  (db.tools.lookup tool_id).map (fun info => info.latest_version)

/-- `VersionChecker::check_via_local_database`: `current` is the
swallowed (`.ok()`) result of `get_current_version`; `latest` comes
from the optional local database; never an error. -/
def check_via_local_database (current : Option String)
    (local_db : Option VersionDatabase) (now : Nat) (tool_id : String) :
    Except ToolError VersionInfo :=
  let latest :=
    match local_db with
    | some db => db.get_latest_version tool_id
    | none => none
  .ok { current := current
        latest := latest
        update_available := compare_versions current latest
        check_method := "local-database"
        last_checked := now }

/-- `VersionChecker::auto_check`. `self_check_result` and
`package_manager_result` are the oracle results of the two effectful
subcalls; `update_check` is the tool's `update_check` field as
`version.rs` reads it. Priority 1 (self-check) is consulted only when
`update_check` is present and non-empty; each `if let Ok(result)`
falls through on error; priority 3 is `check_via_local_database`. -/
def auto_check (update_check : Option (List String))
    (self_check_result package_manager_result : Except ToolError VersionInfo)
    (current : Option String) (local_db : Option VersionDatabase)
    (now : Nat) (tool_id : String) : Except ToolError VersionInfo :=
  let priority2 : Except ToolError VersionInfo :=
    match package_manager_result with
    | .ok result => .ok result
    | .error _ => check_via_local_database current local_db now tool_id
  match update_check with
  | some uc =>
    if ¬ uc.isEmpty then
      match self_check_result with
      | .ok result => .ok result
      | .error _ => priority2
    else priority2
  | none => priority2

/-! ## Background Coordinator (`start_background_status_checking`,
`cliverge-gui/src/app.rs`)

Each configured tool gets one independently spawned task that sends an
`InProgress` event, runs `check_tool_status`, and sends exactly one
`Completed` (on `Ok`) or `Failed` (on `Err`) event tagged with the
tool id. The progress channel is modeled by the emitted event list;
the events observed by the receiver are an arbitrary interleaving —
hence an arbitrary permutation of the concatenation — of the per-task
traces, which models any relative subprocess latency. -/

/-- `ProgressStatus` from `app.rs`. -/
inductive ProgressStatus where
  | InProgress
  | Completed
  | Failed
  deriving DecidableEq, Repr

/-- `StatusCheckProgress` from `app.rs` (`timestamp` abstracted to
`Nat`). -/
structure StatusCheckProgress where
  tool_id : String
  tool_name : String
  status : ProgressStatus
  message : String
  timestamp : Nat
  deriving DecidableEq, Repr

/-- The event trace of one background status-check task for `tool_id`,
given the result of its `check_tool_status` call. -/
def taskTrace (now : Nat) (tool_id : String)
    (check_result : Except ToolError ToolStatus) : List StatusCheckProgress :=
  { tool_id := tool_id, tool_name := tool_id, status := .InProgress
    message := "Checking status...", timestamp := now } ::
  match check_result with
  | .ok _ =>
    [{ tool_id := tool_id, tool_name := tool_id, status := .Completed
       message := "Status check completed", timestamp := now }]
  | .error _ =>
    [{ tool_id := tool_id, tool_name := tool_id, status := .Failed
       message := "Failed", timestamp := now }]

/-- A progress event is terminal when it is `Completed` or `Failed`. -/
def isTerminal (p : StatusCheckProgress) : Bool :=
  p.status = ProgressStatus.Completed ∨ p.status = ProgressStatus.Failed

/-- The concatenated per-task traces of one bulk refresh over
`tool_ids`, with `results` giving each task's `check_tool_status`
outcome. -/
def refreshTraces (now : Nat) (tool_ids : List String)
    (results : String → Except ToolError ToolStatus) : List StatusCheckProgress :=
  (tool_ids.map (fun id => taskTrace now id (results id))).flatten

/-! ## Concrete fixtures used by counterexamples and witnesses -/

/-- Execution oracle on which every subprocess succeeds. -/
def execAllOk : Exec := fun _ => some { success := true, stdout := "", stderr := "" }

/-- A tool whose `version_check` map has no entry for any platform but
whose `install` map covers linux with an explicit command. -/
def cfgNoPlat : ToolConfig :=
  { id := "alpha", name := "Alpha", description := "", website := ""
    command := "alpha"
    version_check := []
    update_check := none
    install := [("linux",
      { method := "custom", command := some ["do-install-alpha"]
        url := none, package_name := none })]
    uninstall := none, update := none }

/-- A tool whose `install` map has no entry for any platform. -/
def cfgNoInstall : ToolConfig :=
  { id := "beta", name := "Beta", description := "", website := ""
    command := "beta"
    version_check := [("linux", ["--version"])]
    update_check := none
    install := []
    uninstall := none, update := none }

/-- A tool with a linux `update_check` entry (self-update path) and an
npm install method. -/
def cfgSelfUp : ToolConfig :=
  { id := "gamma", name := "Gamma", description := "", website := ""
    command := "gamma"
    version_check := [("linux", ["--version"])]
    update_check := some [("linux", ["gamma", "update", "--check-only"])]
    install := [("linux",
      { method := "npm", command := none, url := none
        package_name := some "gamma-pkg" })]
    uninstall := none, update := none }

/-- A tool with no `update_check` and an npm install method, so that
`update_tool` takes the package-manager fallback path. -/
def cfgSelfUpNoUc : ToolConfig :=
  { id := "beta2", name := "Beta II", description := "", website := ""
    command := "beta2"
    version_check := [("linux", ["--version"])]
    update_check := none
    install := [("linux",
      { method := "npm", command := none, url := none
        package_name := some "beta2-pkg" })]
    uninstall := none, update := none }

/-- A second tool carrying the same id as `cfgNoPlat`. -/
def cfgDupAlpha : ToolConfig :=
  { id := "alpha", name := "Alpha II", description := "", website := ""
    command := "alpha2"
    version_check := []
    update_check := none
    install := []
    uninstall := none, update := none }

/-- A version database with no entries. -/
def dbEmpty : VersionDatabase := { last_updated := 0, tools := [] }

/-- A sample per-tool outcome map for the coordinator model. -/
def sampleResults : String → Except ToolError ToolStatus := fun id =>
  if id = "a" then .ok ToolStatus.NotInstalled
  else .error (.NotFound "not found")

/-! # Theorems -/

/-! ## Shared helper lemmas -/

/-- Removing a key from an association list makes its lookup `none`. -/
theorem lookup_filter_ne {α : Type} (l : List (String × α)) (id : String) :
    (l.filter (fun kv => kv.1 ≠ id)).lookup id = none := by
  induction l with
  | nil => rfl
  | cons kv t ih =>
    obtain ⟨k, v⟩ := kv
    by_cases h : k = id
    · have hp : (decide ((k, v).1 ≠ id)) = false := by simp [h]
      simp only [List.filter_cons, hp, Bool.false_eq_true, if_false]
      exact ih
    · have hp : (decide ((k, v).1 ≠ id)) = true := by simp [h]
      have hb : (id == k) = false := by
        simp only [beq_eq_false_iff_ne, ne_eq]
        exact fun hc => h hc.symm
      simp only [List.filter_cons, hp, if_true, List.lookup, hb]
      exact ih

/-- The comparison loop never reports a list newer than itself. -/
theorem cmpParts_self (l : List Nat) : cmpParts l l = false := by
  induction l with
  | nil => rfl
  | cons x xs ih => simp [cmpParts, ih]

/-! ## C3 — update-available version comparison -/

/-- C3 (counterexample): the claim says missing trailing components are
treated as zero, which would make `isNewer("1.2.0","1.2")` false
(`1.2.0` equals zero-padded `1.2`); the code compares the compacted
component lists and treats a strictly longer list as newer on an equal
prefix, so it returns true. -/
theorem is_version_newer_padding_counterexample :
    is_version_newer "1.2.0" "1.2" = true ∧
    is_version_newer_spec "1.2.0" "1.2" = false := by
  constructor <;> decide

/-- C3 (amended): versions are compared component-wise on their
dot-separated numeric components (non-numeric components dropped);
when every compared component is equal, `latest` is reported newer
exactly when it has strictly more numeric components — trailing zeros
count, so `isNewer("1.2.0","1.2")` is true. The comparison is strict:
a version is never newer than itself, and the four example pairs of
the claim evaluate as stated. -/
theorem is_version_newer_amended :
    (∀ v : String, is_version_newer v v = false) ∧
    is_version_newer "1.3.0" "1.2.9" = true ∧
    is_version_newer "2.0.0" "1.9.9" = true ∧
    is_version_newer "1.2.2" "1.2.3" = false ∧
    is_version_newer "1.2.3" "1.2.3" = false ∧
    is_version_newer "1.2.0" "1.2" = true := by
  refine ⟨fun v => ?_, by decide, by decide, by decide, by decide, by decide⟩
  unfold is_version_newer
  exact cmpParts_self _

/-! ## C5 — legacy flat-list deserialization -/

/-- C5: deserializing a legacy flat `versionCheck` argument list is
total and broadcasts the identical list to `windows`, `macos`, and
`linux`; a `null` or absent `updateCheck` deserializes to `none` (no
self-update support), not an error. -/
theorem legacy_version_check_broadcast :
    (∀ v : List String,
      (deserialize_version_check (.seq v)).lookup "windows" = some v ∧
      (deserialize_version_check (.seq v)).lookup "macos" = some v ∧
      (deserialize_version_check (.seq v)).lookup "linux" = some v) ∧
    deserialize_update_check .null = none ∧
    deserialize_update_check .absent = none := by
  exact ⟨fun v => ⟨rfl, rfl, rfl⟩, rfl, rfl⟩

/-! ## C10 — empty legacy list asymmetry -/

/-- C10: an empty legacy `updateCheck` list parses to `none`, while an
empty legacy `versionCheck` list parses to a map binding each of the
three platforms to the empty argument list; neither is an error. -/
theorem legacy_empty_list_asymmetry :
    deserialize_update_check (.seq []) = none ∧
    (deserialize_version_check (.seq [])).lookup "windows" = some [] ∧
    (deserialize_version_check (.seq [])).lookup "macos" = some [] ∧
    (deserialize_version_check (.seq [])).lookup "linux" = some [] := by
  exact ⟨rfl, rfl, rfl, rfl⟩

/-! ## C7 — cache TTL expiry -/

/-- C7: expiry is a pure function of the wall-clock time passed at
read time — an entry created at `T` with `ttl_seconds = 1` is expired
at `T+2` and not expired at `T`; a status-cache get whose stored entry
is expired returns `none` (the read is `&self` in the source and the
stored map is returned untouched by construction). -/
theorem cache_ttl_expiry :
    (∀ (T : Nat) (d : ToolStatus),
      (CacheEntry.mkAt T d 1).is_expired (T + 2) = true ∧
      (CacheEntry.mkAt T d 1).is_expired T = false) ∧
    (∀ (now : Nat) (cache : List (String × CacheEntry ToolStatus))
      (id : String) (e : CacheEntry ToolStatus),
      cache.lookup id = some e →
      e.is_expired now = true →
      cacheGetToolStatus now cache id = none) := by
  constructor
  · intro T d
    constructor
    · simp [CacheEntry.mkAt, CacheEntry.is_expired]
    · simp [CacheEntry.mkAt, CacheEntry.is_expired]
  · intro now cache id e hlook hexp
    unfold cacheGetToolStatus
    rw [hlook]
    simp [hexp]

/-- C7 (witness): the expiry facts at `T = 100` and a concrete expired
get at `now = 5` on a singleton cache stamped at time 0. -/
theorem cache_ttl_expiry_witness :
    (CacheEntry.mkAt 100 ToolStatus.Unknown 1).is_expired 102 = true ∧
    (CacheEntry.mkAt 100 ToolStatus.Unknown 1).is_expired 100 = false ∧
    cacheGetToolStatus 5 [("a", CacheEntry.mkAt 0 ToolStatus.Unknown 1)] "a" = none := by
  refine ⟨(cache_ttl_expiry.1 100 ToolStatus.Unknown).1,
    (cache_ttl_expiry.1 100 ToolStatus.Unknown).2, ?_⟩
  exact cache_ttl_expiry.2 5 _ "a" (CacheEntry.mkAt 0 ToolStatus.Unknown 1) rfl (by decide)

/-! ## C6 — registry id-uniqueness under CRUD -/

/-- Replacing a tool under its own id leaves the id list unchanged. -/
theorem update_tool_config_ids_eq (ts : List ToolConfig) (id : String)
    (config : ToolConfig) (hid : config.id = id) :
    (update_tool_config ts id config).map (fun t => t.id) =
      ts.map (fun t => t.id) := by
  induction ts with
  | nil => rfl
  | cons t ts ih =>
    by_cases h : t.id = id
    · simp [update_tool_config, h, hid]
    · simp [update_tool_config, h, ih]

/-- C6 (counterexample): `add_tool` is an unconditional `Vec::push`,
so adding a second config carrying an already-present id breaks the
pairwise-distinct-ids invariant the claim says every operation
preserves. -/
theorem add_tool_duplicate_counterexample :
    idsNodup [cfgNoPlat] ∧ ¬ idsNodup (add_tool [cfgNoPlat] cfgDupAlpha) := by
  constructor <;> decide

/-- C6 (amended): `remove_tool` always preserves id-uniqueness;
`update_tool_config` preserves it whenever the replacement config
keeps the id it is stored under; `add_tool` appends unconditionally
and preserves uniqueness exactly under the extra hypothesis that the
new tool's id is not already present. -/
theorem registry_ops_preserve_idsNodup :
    (∀ (tools : List ToolConfig) (id : String),
      idsNodup tools → idsNodup (remove_tool tools id)) ∧
    (∀ (tools : List ToolConfig) (id : String) (config : ToolConfig),
      config.id = id → idsNodup tools → idsNodup (update_tool_config tools id config)) ∧
    (∀ (tools : List ToolConfig) (tool : ToolConfig),
      idsNodup tools → tool.id ∉ tools.map (fun t => t.id) →
      idsNodup (add_tool tools tool)) := by
  refine ⟨?_, ?_, ?_⟩
  · intro tools id h
    exact h.sublist (List.Sublist.map _ (List.filter_sublist tools))
  · intro tools id config hid h
    unfold idsNodup at h ⊢
    rw [update_tool_config_ids_eq tools id config hid]
    exact h
  · intro tools tool h hnot
    unfold idsNodup at h ⊢
    unfold add_tool
    rw [List.map_append]
    rw [List.nodup_append]
    refine ⟨h, List.nodup_singleton _, ?_⟩
    intro x hx hx'
    simp only [List.map_cons, List.map_nil, List.mem_singleton] at hx'
    subst hx'
    exact hnot hx

/-- C6 (witness): the three preserved cases on a concrete two-tool
registry. -/
theorem registry_ops_preserve_idsNodup_witness :
    idsNodup (remove_tool [cfgNoPlat, cfgNoInstall] "alpha") ∧
    idsNodup (update_tool_config [cfgNoPlat, cfgNoInstall] "alpha" cfgDupAlpha) ∧
    idsNodup (add_tool [cfgNoPlat] cfgNoInstall) := by
  refine ⟨?_, ?_, ?_⟩
  · exact registry_ops_preserve_idsNodup.1 [cfgNoPlat, cfgNoInstall] "alpha" (by decide)
  · exact registry_ops_preserve_idsNodup.2.1 [cfgNoPlat, cfgNoInstall] "alpha"
      cfgDupAlpha rfl (by decide)
  · exact registry_ops_preserve_idsNodup.2.2 [cfgNoPlat] cfgNoInstall
      (by decide) (by decide)

/-! ## C1 — platform missing from `versionCheck` -/

/-- C1 (counterexample): for a tool whose `version_check` map has no
entry for the current platform, `check_tool_status` silently reports
`NotInstalled` (`is_tool_installed` returns `false` for a missing
platform) instead of the claimed `Error("platform not supported")`,
and `install_tool` — which consults the `install` map, not
`version_check` — proceeds and returns success rather than
`NotSupported`. The oracle makes every subprocess succeed, so only the
missing platform entry drives the outcome. -/
theorem platform_missing_counterexample :
    check_tool_status execAllOk (.ok "1.0.0") "linux" [cfgNoPlat] [] "alpha" =
      .ok (ToolStatus.NotInstalled, [("alpha", ToolStatus.NotInstalled)]) ∧
    install_tool execAllOk "linux" [cfgNoPlat] [] "alpha" = .ok [] := by
  exact ⟨rfl, rfl⟩

/-- C1 (amended): when the current platform is absent from a tool's
`version_check` map, `check_tool_status` returns `Ok NotInstalled`
(silently — no `Error("platform not supported")`, and no panic since
the function is total), caching that status; `install_tool` returns
`NotSupported` exactly when the `install` map lacks the platform —
the `version_check` map plays no part in its platform gate. -/
theorem platform_missing_amended :
    (∀ (exec : Exec) (get_version : Except ToolError String) (platform : String)
      (tools : List ToolConfig) (cache : List (String × ToolStatus))
      (id : String) (cfg : ToolConfig),
      get_tool_config tools id = some cfg →
      cfg.version_check.lookup platform = none →
      check_tool_status exec get_version platform tools cache id =
        .ok (ToolStatus.NotInstalled, sessionInsert cache id ToolStatus.NotInstalled)) ∧
    (∀ (exec : Exec) (platform : String) (tools : List ToolConfig)
      (cache : List (String × ToolStatus)) (id : String) (cfg : ToolConfig),
      get_tool_config tools id = some cfg →
      cfg.install.lookup platform = none →
      install_tool exec platform tools cache id =
        .error (.NotSupported ("Platform " ++ platform ++ " not supported for " ++ id))) := by
  constructor
  · intro exec get_version platform tools cache id cfg h1 h2
    have hinst : is_tool_installed exec platform cfg = false := by
      unfold is_tool_installed
      rw [h2]
    unfold check_tool_status
    rw [h1]
    simp [hinst]
  · intro exec platform tools cache id cfg h1 h2
    unfold install_tool
    rw [h1]
    simp [h2]

/-- C1 (witness): the amended behavior at the concrete fixtures — a
missing `version_check` platform yields a cached `NotInstalled`, and a
missing `install` platform yields `NotSupported`. -/
theorem platform_missing_amended_witness :
    check_tool_status execAllOk (.ok "1.0.0") "linux" [cfgNoPlat] [] "alpha" =
      .ok (ToolStatus.NotInstalled, sessionInsert [] "alpha" ToolStatus.NotInstalled) ∧
    install_tool execAllOk "linux" [cfgNoInstall] [] "beta" =
      .error (.NotSupported ("Platform " ++ "linux" ++ " not supported for " ++ "beta")) := by
  constructor
  · exact platform_missing_amended.1 execAllOk (.ok "1.0.0") "linux" [cfgNoPlat] []
      "alpha" cfgNoPlat rfl rfl
  · exact platform_missing_amended.2 execAllOk "linux" [cfgNoInstall] [] "beta"
      cfgNoInstall rfl rfl

/-! ## C2 — cache invalidation on successful install/update -/

/-- The success continuation shared by the install/update paths: if
branching on a run result produced `ok`, the result is the success
continuation's value. -/
theorem match_run_ok {α : Type} (s c : α) (r : Except ToolError Unit)
    (h : (match r with
          | .ok _ => Except.ok s
          | .error e => (Except.error e : Except ToolError α)) = .ok c) : c = s := by
  cases r with
  | ok _ => injection h with h; exact h.symm
  | error e => exact absurd h (by simp)

/-- C2 (counterexample): the self-update path of `update_tool` returns
success immediately after running the substituted `update_check`
command, without removing the tool's session-cache entry — the status
cache still maps the tool to its stale `Installed` status. (The
persisted status cache is refuted a fortiori: `ToolManager` holds no
reference to the persisted `CacheManager` at all.) -/
theorem update_selfupdate_cache_counterexample :
    update_tool execAllOk "linux" [cfgSelfUp]
        [("gamma", ToolStatus.Installed "1.0.0")] "gamma" =
      .ok [("gamma", ToolStatus.Installed "1.0.0")] ∧
    List.lookup "gamma" [("gamma", ToolStatus.Installed "1.0.0")] =
      some (ToolStatus.Installed "1.0.0") := by
  exact ⟨rfl, rfl⟩

/-- C2 (amended): on a successful `install_tool` that actually ran a
command (the tool was not already detected installed) the in-memory
session-cache entry for the id is removed, and likewise on the
package-manager fallback path of `update_tool` (here isolated by
`update_check = none`); but the self-update success path of
`update_tool` returns with the session cache untouched, and neither
operation touches the persisted status cache (the manager has no
reference to it). -/
theorem install_update_cache_amended :
    (∀ (exec : Exec) (platform : String) (tools : List ToolConfig)
      (cache : List (String × ToolStatus)) (id : String) (cfg : ToolConfig)
      (cache' : List (String × ToolStatus)),
      get_tool_config tools id = some cfg →
      is_tool_installed exec platform cfg = false →
      install_tool exec platform tools cache id = .ok cache' →
      cache'.lookup id = none) ∧
    (∀ (exec : Exec) (platform : String) (tools : List ToolConfig)
      (cache : List (String × ToolStatus)) (id : String) (cfg : ToolConfig)
      (cache' : List (String × ToolStatus)),
      get_tool_config tools id = some cfg →
      cfg.update_check = none →
      update_tool exec platform tools cache id = .ok cache' →
      cache'.lookup id = none) ∧
    (∀ (exec : Exec) (platform : String) (tools : List ToolConfig)
      (cache : List (String × ToolStatus)) (id : String) (cfg : ToolConfig)
      (ic : InstallMethod) (ucm : List (String × List String)) (ucmd : List String),
      get_tool_config tools id = some cfg →
      cfg.install.lookup platform = some ic →
      is_tool_installed exec platform cfg = true →
      cfg.update_check = some ucm →
      ucm.lookup platform = some ucmd →
      execute_install_command exec (selfUpdateArgv ucmd) = .ok () →
      update_tool exec platform tools cache id = .ok cache) := by
  refine ⟨?_, ?_, ?_⟩
  · intro exec platform tools cache id cfg cache' h1 h2 h3
    unfold install_tool at h3
    simp only [h1] at h3
    rcases hic : cfg.install.lookup platform with _ | ic
    · rw [hic] at h3
      exact absurd h3 (by simp)
    · rw [hic] at h3
      simp only [h2, Bool.false_eq_true, if_false] at h3
      rcases hcmd : ic.command with _ | command
      · rw [hcmd] at h3
        rcases hcon : construct_install_command ic with e | command'
        · rw [hcon] at h3
          exact absurd h3 (by simp)
        · rw [hcon] at h3
          have := match_run_ok _ _ _ h3
          rw [this]
          exact lookup_filter_ne cache id
      · rw [hcmd] at h3
        have := match_run_ok _ _ _ h3
        rw [this]
        exact lookup_filter_ne cache id
  · intro exec platform tools cache id cfg cache' h1 h2 h3
    unfold update_tool at h3
    simp only [h1] at h3
    rcases hic : cfg.install.lookup platform with _ | ic
    · rw [hic] at h3
      exact absurd h3 (by simp)
    · rw [hic] at h3
      rcases hti : is_tool_installed exec platform cfg with _ | _
      · simp only [hti, Bool.not_false, if_true] at h3
        exact absurd h3 (by simp)
      · simp only [hti, Bool.not_true, Bool.false_eq_true, if_false, h2] at h3
        rcases hcon : construct_update_command ic with e | command
        · rw [hcon] at h3
          exact absurd h3 (by simp)
        · rw [hcon] at h3
          have := match_run_ok _ _ _ h3
          rw [this]
          exact lookup_filter_ne cache id
  · intro exec platform tools cache id cfg ic ucm ucmd h1 h2 h3 h4 h5 h6
    unfold update_tool
    rw [h1]
    simp [h2, h3, h4, h5, h6]

/-- C2 (witness): all three amended cases at concrete fixtures — the
install success path removes the entry, the package-manager update
path removes it, the self-update success path leaves the cache
untouched. -/
theorem install_update_cache_amended_witness :
    List.lookup "alpha" ([] : List (String × ToolStatus)) = none ∧
    List.lookup "beta" ([] : List (String × ToolStatus)) = none ∧
    update_tool execAllOk "linux" [cfgSelfUp]
        [("gamma", ToolStatus.Installed "1.0.0")] "gamma" =
      .ok [("gamma", ToolStatus.Installed "1.0.0")] := by
  refine ⟨?_, ?_, ?_⟩
  · exact install_update_cache_amended.1 execAllOk "linux" [cfgNoPlat]
      [("alpha", ToolStatus.Unknown)] "alpha" cfgNoPlat [] rfl rfl rfl
  · exact install_update_cache_amended.2.1 execAllOk "linux" [cfgSelfUpNoUc]
      [("beta2", ToolStatus.Installed "0.1")] "beta2" cfgSelfUpNoUc [] rfl rfl rfl
  · exact install_update_cache_amended.2.2 execAllOk "linux" [cfgSelfUp]
      [("gamma", ToolStatus.Installed "1.0.0")] "gamma" cfgSelfUp
      { method := "npm", command := none, url := none, package_name := some "gamma-pkg" }
      [("linux", ["gamma", "update", "--check-only"])]
      ["gamma", "update", "--check-only"] rfl rfl rfl rfl rfl rfl

/-! ## C8 — Auto strategy fallback chain -/

/-- C8 (counterexample): with no `updateCheck` configured (so SelfCheck
cannot be consulted), a failing PackageManager check, and a local
database holding no entry for the tool, `auto_check` does not return
the claimed "clean error": `check_via_local_database` is infallible
and the result is `Ok` with `latest = none` and provenance
`"local-database"`. -/
theorem auto_check_no_entry_counterexample :
    auto_check none (.error (.ExecutionFailed "self failed"))
        (.error (.NotSupported "pm failed")) none (some dbEmpty) 0 "alpha" =
      .ok { current := none, latest := none, update_available := false
            check_method := "local-database", last_checked := 0 } ∧
    (∀ e : ToolError,
      auto_check none (.error (.ExecutionFailed "self failed"))
        (.error (.NotSupported "pm failed")) none (some dbEmpty) 0 "alpha" ≠
      .error e) := by
  refine ⟨rfl, ?_⟩
  intro e h
  have hval : auto_check none (.error (.ExecutionFailed "self failed"))
      (.error (.NotSupported "pm failed")) none (some dbEmpty) 0 "alpha" =
      (.ok { current := none, latest := none, update_available := false
             check_method := "local-database", last_checked := 0 } :
        Except ToolError VersionInfo) := rfl
  rw [hval] at h
  exact absurd h (by simp)

/-- C8 (amended): SelfCheck is consulted only when an `updateCheck` is
configured and non-empty — with `none` or an empty list the self-check
result is irrelevant; when it is consulted and succeeds, its result is
returned; when SelfCheck and PackageManager both fail, `auto_check`
returns the LocalDatabase result, which is always `Ok` with provenance
`"local-database"` — and when the database has no entry for the tool
the result still is `Ok` with `latest = none`, not an error. The chain
is a total function (no hang in the model). -/
theorem auto_check_fallback_amended :
    (∀ (s₁ s₂ pm : Except ToolError VersionInfo) (cur : Option String)
      (db : Option VersionDatabase) (now : Nat) (id : String),
      auto_check none s₁ pm cur db now id = auto_check none s₂ pm cur db now id) ∧
    (∀ (s₁ s₂ pm : Except ToolError VersionInfo) (cur : Option String)
      (db : Option VersionDatabase) (now : Nat) (id : String),
      auto_check (some []) s₁ pm cur db now id =
        auto_check (some []) s₂ pm cur db now id) ∧
    (∀ (uc : List String) (r : VersionInfo) (pm : Except ToolError VersionInfo)
      (cur : Option String) (db : Option VersionDatabase) (now : Nat) (id : String),
      uc ≠ [] →
      auto_check (some uc) (.ok r) pm cur db now id = .ok r) ∧
    (∀ (uc : Option (List String)) (es ep : ToolError) (cur : Option String)
      (db : Option VersionDatabase) (now : Nat) (id : String),
      auto_check uc (.error es) (.error ep) cur db now id =
        check_via_local_database cur db now id) ∧
    (∀ (cur : Option String) (db : VersionDatabase) (now : Nat) (id : String),
      db.tools.lookup id = none →
      check_via_local_database cur (some db) now id =
        .ok { current := cur, latest := none
              update_available := false
              check_method := "local-database", last_checked := now }) := by
  refine ⟨?_, ?_, ?_, ?_, ?_⟩
  · intro s₁ s₂ pm cur db now id
    rfl
  · intro s₁ s₂ pm cur db now id
    rfl
  · intro uc r pm cur db now id h
    unfold auto_check
    simp [h]
  · intro uc es ep cur db now id
    unfold auto_check
    cases uc with
    | none => rfl
    | some l => cases l <;> rfl
  · intro cur db now id h
    unfold check_via_local_database VersionDatabase.get_latest_version
    dsimp only
    rw [h]
    cases cur <;> rfl

/-- C8 (witness): the gated conjuncts at concrete inputs — a non-empty
`updateCheck` with a successful self-check wins, and a database with
no entry yields the `Ok`/`latest = none` result. -/
theorem auto_check_fallback_amended_witness :
    auto_check (some ["gamma", "update", "--check-only"])
        (.ok { current := some "1.0.0", latest := some "1.1.0"
               update_available := true, check_method := "self-check"
               last_checked := 0 })
        (.error (.NotSupported "pm failed")) none (some dbEmpty) 0 "alpha" =
      .ok { current := some "1.0.0", latest := some "1.1.0"
            update_available := true, check_method := "self-check"
            last_checked := 0 } ∧
    check_via_local_database (some "1.0.0") (some dbEmpty) 7 "alpha" =
      .ok { current := some "1.0.0", latest := none
            update_available := false
            check_method := "local-database", last_checked := 7 } := by
  constructor
  · exact auto_check_fallback_amended.2.2.1 ["gamma", "update", "--check-only"]
      _ _ none (some dbEmpty) 0 "alpha" (by decide)
  · exact auto_check_fallback_amended.2.2.2.2 (some "1.0.0") dbEmpty 7 "alpha" rfl

/-! ## C9 — one terminal progress event per tool -/

/-- Every task trace holds exactly one terminal event. -/
theorem taskTrace_filter_terminal_length (now : Nat) (id : String)
    (r : Except ToolError ToolStatus) :
    ((taskTrace now id r).filter isTerminal).length = 1 := by
  cases r <;> simp [taskTrace, isTerminal, List.filter]

/-- Every event of a task trace is tagged with that task's tool id. -/
theorem taskTrace_tool_id (now : Nat) (id : String)
    (r : Except ToolError ToolStatus) (e : StatusCheckProgress)
    (he : e ∈ taskTrace now id r) : e.tool_id = id := by
  cases r <;> simp [taskTrace] at he <;> rcases he with h | h <;> rw [h]

/-- The concatenated refresh trace holds exactly one terminal event
per tool id. -/
theorem refreshTraces_filter_length (now : Nat) (tool_ids : List String)
    (results : String → Except ToolError ToolStatus) :
    ((refreshTraces now tool_ids results).filter isTerminal).length =
      tool_ids.length := by
  induction tool_ids with
  | nil => rfl
  | cons id ids ih =>
    have hsplit : refreshTraces now (id :: ids) results =
        taskTrace now id (results id) ++ refreshTraces now ids results := by
      simp [refreshTraces]
    rw [hsplit, List.filter_append, List.length_append,
      taskTrace_filter_terminal_length, ih]
    simp [Nat.add_comm]

/-- C9: a bulk refresh over `tool_ids` produces, in any interleaving
of the per-tool task traces (any permutation of their concatenation —
covering every relative subprocess latency), exactly one terminal
(`Completed` or `Failed`) progress event per tool, and every terminal
event carries the id of one of the refreshed tools. -/
theorem refresh_terminal_events (now : Nat) (tool_ids : List String)
    (results : String → Except ToolError ToolStatus)
    (events : List StatusCheckProgress)
    (hperm : events.Perm (refreshTraces now tool_ids results)) :
    (events.filter isTerminal).length = tool_ids.length ∧
    ∀ e ∈ events, isTerminal e = true → e.tool_id ∈ tool_ids := by
  constructor
  · rw [(hperm.filter isTerminal).length_eq]
    exact refreshTraces_filter_length now tool_ids results
  · intro e he _
    have he' : e ∈ refreshTraces now tool_ids results := hperm.mem_iff.mp he
    unfold refreshTraces at he'
    obtain ⟨s, hs, hes⟩ := List.mem_flatten.mp he'
    obtain ⟨id, hid, hsid⟩ := List.mem_map.mp hs
    rw [← hsid] at hes
    rw [taskTrace_tool_id now id (results id) e hes]
    exact hid

/-- C9 (witness): a concrete two-tool refresh — one check succeeding,
one failing — observed in trace order: exactly two terminal events,
each tagged with one of the two ids. -/
theorem refresh_terminal_events_witness :
    ((refreshTraces 0 ["a", "b"] sampleResults).filter isTerminal).length = 2 ∧
    ∀ e ∈ refreshTraces 0 ["a", "b"] sampleResults,
      isTerminal e = true → e.tool_id ∈ ["a", "b"] := by
  exact refresh_terminal_events 0 ["a", "b"] sampleResults
    (refreshTraces 0 ["a", "b"] sampleResults) (List.Perm.refl _)

/-! ## C4 — version-string extraction priority order -/

/-- A failed scan means the anchored pattern fails at every suffix. -/
theorem firstMatch_none_suffix (f : List Char → Option (List Char)) :
    ∀ (l s : List Char), firstMatch f l = none → s <:+ l → f s = none := by
  intro l
  induction l with
  | nil =>
    intro s h hs
    rw [List.suffix_nil.mp hs]
    exact h
  | cons c rest ih =>
    intro s h hs
    have hf : f (c :: rest) = none ∧ firstMatch f rest = none := by
      unfold firstMatch at h
      rcases hc : f (c :: rest) with _ | v
      · simp only [hc] at h
        exact ⟨rfl, h⟩
      · simp only [hc] at h
        exact absurd h (by simp)
    rcases List.suffix_cons_iff.mp hs with h1 | h1
    · rw [h1]
      exact hf.1
    · exact ih s hf.2 h1

/-- Conversely, a pattern failing at every suffix makes the scan fail. -/
theorem firstMatch_none_of_all (f : List Char → Option (List Char)) :
    ∀ l : List Char, (∀ s, s <:+ l → f s = none) → firstMatch f l = none := by
  intro l
  induction l with
  | nil =>
    intro h
    exact h [] (List.suffix_refl _)
  | cons c rest ih =>
    intro h
    have h1 : f (c :: rest) = none := h _ (List.suffix_refl _)
    have h2 : firstMatch f rest = none :=
      ih (fun s hs => h s (hs.trans (List.suffix_cons c rest)))
    unfold firstMatch
    simp only [h1, h2]

/-- The optional-`v` pattern failing at a position forces the bare
core pattern to fail there as well. -/
theorem matchCore_none_of_patAnyAt_none (s : List Char)
    (h : patAnyAt s = none) : matchCore s = none := by
  unfold patAnyAt at h
  by_cases hh : s.head? = some 'v'
  · rw [if_pos hh] at h
    rcases hm : matchCore s.tail with _ | w
    · rw [hm] at h
      simpa [Option.orElse] using h
    · rw [hm] at h
      simp [Option.orElse] at h
  · rw [if_neg hh] at h
    exact h

/-- Stripping the literal `version` yields a suffix. -/
theorem stripVersionLit_suffix (s r : List Char)
    (h : stripVersionLit s = some r) : r <:+ s := by
  unfold stripVersionLit at h
  split at h
  · injection h with h
    rw [← h]
    exact ⟨['v', 'e', 'r', 's', 'i', 'o', 'n'], rfl⟩
  · exact absurd h (by simp)

/-- A `version`-prefixed match contains a bare core match at some
suffix of the scanned position. -/
theorem patVersionAt_suffix (s : List Char) (v : List Char)
    (h : patVersionAt s = some v) :
    ∃ t, t <:+ s ∧ matchCore t = some v := by
  unfold patVersionAt at h
  rcases hsv : stripVersionLit s with _ | r
  · simp only [hsv] at h
    exact absurd h (by simp)
  · simp only [hsv] at h
    have hr : r <:+ s := stripVersionLit_suffix s r hsv
    by_cases hw : (r.takeWhile Char.isWhitespace).isEmpty
    · simp only [hw, if_true] at h
      exact absurd h (by simp)
    · simp only [hw, Bool.false_eq_true, if_false] at h
      have hr2 : r.dropWhile Char.isWhitespace <:+ r := List.dropWhile_suffix _
      by_cases hh : (r.dropWhile Char.isWhitespace).head? = some 'v'
      · rw [if_pos hh] at h
        rcases hm : matchCore (r.dropWhile Char.isWhitespace).tail with _ | w
        · rw [hm] at h
          simp only [Option.orElse] at h
          exact ⟨r.dropWhile Char.isWhitespace, hr2.trans hr, h⟩
        · rw [hm] at h
          simp only [Option.orElse] at h
          refine ⟨(r.dropWhile Char.isWhitespace).tail, ?_, ?_⟩
          · exact ((List.tail_suffix _).trans hr2).trans hr
          · rw [hm]
            exact h
      · rw [if_neg hh] at h
        exact ⟨r.dropWhile Char.isWhitespace, hr2.trans hr, h⟩

/-- C4 (counterexample): on `"1.0.0 version 2.1.0"` the code returns
`"1.0.0"` — its first pattern is `v?X.Y.Z(.W)?` *anywhere*, matching
at the start — while the claim's priority order ((a) the
`version`-prefixed pattern first) would return `"2.1.0"`, as the
spec-ordered variant shows. -/
theorem parse_version_string_order_counterexample :
    parse_version_string "1.0.0 version 2.1.0" = "1.0.0" ∧
    parse_version_string_spec "1.0.0 version 2.1.0" = "2.1.0" := by
  constructor <;> decide

/-- C4 (amended): the code tries the patterns in the order
`v?X.Y.Z(.W)?` anywhere, then `version\s+v?X.Y.Z(.W)?`, then bare
`X.Y.Z(.W)?` — and since the first pattern subsumes the other two, the
result is always the leftmost `v?X.Y.Z(.W)?` match, or `"unknown"`
when none exists; the four example strings of the claim evaluate as
stated. -/
theorem parse_version_string_amended :
    parse_version_string "v1.2.3" = "1.2.3" ∧
    parse_version_string "version 2.1.0" = "2.1.0" ∧
    parse_version_string "foo 1.0.0-beta" = "1.0.0" ∧
    parse_version_string "no version here" = "unknown" ∧
    (∀ s : String, parse_version_string s =
      match firstMatch patAnyAt s.toList with
      | some v => String.mk v
      | none => "unknown") := by
  refine ⟨by decide, by decide, by decide, by decide, fun s => ?_⟩
  rcases hm : firstMatch patAnyAt s.toList with _ | v
  · have hall : ∀ t, t <:+ s.toList → matchCore t = none := fun t ht =>
      matchCore_none_of_patAnyAt_none t
        (firstMatch_none_suffix patAnyAt s.toList t hm ht)
    have h3 : firstMatch matchCore s.toList = none :=
      firstMatch_none_of_all matchCore s.toList hall
    have h2 : firstMatch patVersionAt s.toList = none := by
      refine firstMatch_none_of_all patVersionAt s.toList (fun t ht => ?_)
      rcases hpv : patVersionAt t with _ | w
      · rfl
      · obtain ⟨u, hu, hmu⟩ := patVersionAt_suffix t w hpv
        rw [hall u (hu.trans ht)] at hmu
        exact absurd hmu (by simp)
    unfold parse_version_string
    simp only [hm, h2, h3]
  · unfold parse_version_string
    simp only [hm]

end Cliverge
